import Mathlib

/-!
Verification of the phantom application runtime: the stacked state machine
(crates/phantom_app/src/state.rs) and the wgpu renderer backend
(crates/phantom_render/src/wgpu.rs).

States are identified by natural-number labels. Lifecycle hooks are modelled
as observable events appended to a trace in the order the code invokes them;
the default hook implementations in the source always return Ok, so hook
results are not a source of control flow here. The stack is a list whose
head is the top of the stack, matching Vec push/pop at the back.
-/

/-- A lifecycle hook invocation on the state carrying the given label. -/
inductive Hook where
  | onStart (s : Nat)
  | onStop (s : Nat)
  | onPause (s : Nat)
  | onResume (s : Nat)
deriving DecidableEq, Repr

/-- The five-way transition request a state returns, from enum Transition. -/
inductive Transition where
  | none
  | pop
  | push (s : Nat)
  | switch (s : Nat)
  | quit
deriving DecidableEq, Repr

/-- struct StateMachine: running flag and the stack of states.
List head is the top of the stack. -/
structure StateMachine where
  running : Bool
  states : List Nat
deriving DecidableEq, Repr

/-- StateMachine::new: stack seeded with the initial state, not running. -/
def StateMachine.new (initial_state : Nat) : StateMachine :=
  { running := false, states := [initial_state] }

/-- StateMachine::current_state: the top of the stack, or the error from
the Context call when the stack is empty. -/
def StateMachine.current_state (m : StateMachine) : Except String Nat :=
  match m.states with
  | top :: _ => Except.ok top
  | [] => Except.error "Tried to access state in state machine with no states present!"

/-- StateMachine::is_running. -/
def StateMachine.is_running (m : StateMachine) : Bool :=
  m.running

/-- StateMachine::start: no-op when already running; otherwise invokes
on_start on the current state and sets running. Propagates the
current_state error when the stack is empty. -/
def StateMachine.start (m : StateMachine) : Except String (StateMachine × List Hook) :=
  if m.running then
    Except.ok (m, [])
  else
    match m.states with
    | top :: rest =>
        Except.ok ({ running := true, states := top :: rest }, [Hook.onStart top])
    | [] => Except.error "Tried to access state in state machine with no states present!"

/-- StateMachine::switch: when running, pop the top state and invoke its
on_stop (when one exists), push the new state, invoke its on_start. -/
def StateMachine.switch (m : StateMachine) (state : Nat) : StateMachine × List Hook :=
  if m.running then
    match m.states with
    | old :: rest =>
        ({ running := m.running, states := state :: rest },
         [Hook.onStop old, Hook.onStart state])
    | [] =>
        ({ running := m.running, states := [state] }, [Hook.onStart state])
  else
    (m, [])

/-- StateMachine::push: when running, invoke on_pause on the current state
(when one exists), push the new state, invoke its on_start. -/
def StateMachine.push (m : StateMachine) (state : Nat) : StateMachine × List Hook :=
  if m.running then
    match m.states with
    | cur :: rest =>
        ({ running := m.running, states := state :: cur :: rest },
         [Hook.onPause cur, Hook.onStart state])
    | [] =>
        ({ running := m.running, states := [state] }, [Hook.onStart state])
  else
    (m, [])

/-- StateMachine::pop: when running, pop the top state and invoke its
on_stop; then invoke on_resume on the new top when one remains, otherwise
clear the running flag. -/
def StateMachine.pop (m : StateMachine) : StateMachine × List Hook :=
  if m.running then
    match m.states with
    | top :: rest =>
        match rest with
        | next :: _ =>
            ({ running := m.running, states := rest },
             [Hook.onStop top, Hook.onResume next])
        | [] =>
            ({ running := false, states := [] }, [Hook.onStop top])
    | [] =>
        ({ running := false, states := [] }, [])
  else
    (m, [])

/-- StateMachine::stop (the Quit handler): when running, drain the stack
top to bottom invoking on_stop on each state, then clear the running flag. -/
def StateMachine.stop (m : StateMachine) : StateMachine × List Hook :=
  if m.running then
    ({ running := false, states := [] }, m.states.map Hook.onStop)
  else
    (m, [])

/-- StateMachine::transition: dispatch one transition request; no-op when
not running. -/
def StateMachine.transition (m : StateMachine) (request : Transition) : StateMachine × List Hook :=
  if m.running then
    match request with
    | Transition.none => (m, [])
    | Transition.pop => m.pop
    | Transition.push s => m.push s
    | Transition.switch s => m.switch s
    | Transition.quit => m.stop
  else
    (m, [])

/-!
Renderer backend (crates/phantom_render/src/wgpu.rs). The device, queue,
surface and pipeline handles carry no modelled logic; the calls the code
makes against them (surface.configure, Texture::create_depth_texture,
log::error) are recorded as effects in a trace, in invocation order.
Dimensions are the [u32; 2] array, modelled as a pair of naturals.
-/

/-- struct Texture (texture.rs), as produced by create_depth_texture:
only its size and label are observable to the claims. -/
structure Texture where
  width : Nat
  height : Nat
  label : String
deriving DecidableEq, Repr

/-- Texture::create_depth_texture. -/
def Texture.create_depth_texture (width height : Nat) (label : String) : Texture :=
  { width := width, height := height, label := label }

/-- wgpu::SurfaceConfiguration: width and height are what resize mutates;
the format chosen at startup is carried along as an opaque tag. -/
structure SurfaceConfiguration where
  format : Nat
  width : Nat
  height : Nat
deriving DecidableEq, Repr

/-- wgpu::SurfaceError, the error type of render_frame. -/
inductive SurfaceError where
  | lost
  | outdated
  | timeout
  | outOfMemory
deriving DecidableEq, Repr

/-- Observable side effects of the renderer methods. -/
inductive RenderEffect where
  | configureSurface (config : SurfaceConfiguration)
  | createDepthTexture (width height : Nat)
  | logError (e : SurfaceError)
deriving DecidableEq, Repr

/-- struct WgpuRenderer: the fields the resize and render logic reads or
writes. -/
structure WgpuRenderer where
  config : SurfaceConfiguration
  dimensions : Nat × Nat
  depth_texture : Texture
deriving DecidableEq, Repr

/-- WgpuRenderer::resize: a zero width or height returns immediately;
otherwise store the dimensions, update the surface configuration,
reconfigure the surface and recreate the depth texture at the new size. -/
def WgpuRenderer.resize (r : WgpuRenderer) (dimensions : Nat × Nat) :
    WgpuRenderer × List RenderEffect :=
  if dimensions.1 = 0 || dimensions.2 = 0 then
    (r, [])
  else
    let config := { r.config with width := dimensions.1, height := dimensions.2 }
    ({ config := config,
       dimensions := dimensions,
       depth_texture := Texture.create_depth_texture dimensions.1 dimensions.2 "Depth Texture" },
     [RenderEffect.configureSurface config,
      RenderEffect.createDepthTexture dimensions.1 dimensions.2])

/-- WgpuRenderer::render: matches on the outcome of render_frame. The
acquisition of the surface texture is external input, so the outcome is a
parameter; the gui context and paint jobs are consumed only by
render_frame and carried opaquely. Lost triggers resize at the stored
dimensions; every other error is logged; the method always returns Ok. -/
def WgpuRenderer.render (r : WgpuRenderer) (gui_context : Nat) (paint_jobs : List Nat)
    (frameResult : Except SurfaceError Unit) :
    (WgpuRenderer × List RenderEffect) × Except String Unit :=
  let _ := gui_context
  let _ := paint_jobs
  match frameResult with
  | Except.ok _ => ((r, []), Except.ok ())
  | Except.error SurfaceError.lost => (r.resize r.dimensions, Except.ok ())
  | Except.error e => ((r, [RenderEffect.logError e]), Except.ok ())

/-- C1: pushing B onto a running machine whose top state is A invokes
A.on_pause strictly before B.on_start, never invokes A.on_stop, and leaves
A directly beneath B on the stack. -/
theorem push_pauses_then_starts (m : StateMachine) (A B : Nat) (rest : List Nat)
    (hrun : m.running = true) (hst : m.states = A :: rest) :
    m.transition (Transition.push B)
      = ({ running := true, states := B :: A :: rest }, [Hook.onPause A, Hook.onStart B])
    ∧ Hook.onStop A ∉ [Hook.onPause A, Hook.onStart B] := by
  constructor
  · simp [StateMachine.transition, StateMachine.push, hrun, hst]
  · simp

/-- Witness for C1 at the running machine [0] pushing state 1. -/
theorem push_pauses_then_starts_witness :
    (({ running := true, states := [0] } : StateMachine)).transition (Transition.push 1)
      = ({ running := true, states := [1, 0] }, [Hook.onPause 0, Hook.onStart 1])
    ∧ Hook.onStop 0 ∉ [Hook.onPause 0, Hook.onStart 1] :=
  push_pauses_then_starts { running := true, states := [0] } 0 1 [] rfl rfl

/-- C2: popping a running machine invokes on_stop on the popped top state;
when a state remains it receives on_resume strictly afterwards; when none
remains the machine stops running and no on_resume is invoked. -/
theorem pop_stops_then_resumes (m : StateMachine) (B : Nat) (rest : List Nat)
    (hrun : m.running = true) (hst : m.states = B :: rest) :
    (∀ A rest2, rest = A :: rest2 →
      m.transition Transition.pop
        = ({ running := true, states := A :: rest2 }, [Hook.onStop B, Hook.onResume A]))
    ∧ (rest = [] →
      m.transition Transition.pop = ({ running := false, states := [] }, [Hook.onStop B])
      ∧ (m.transition Transition.pop).1.is_running = false) := by
  constructor
  · intro A rest2 hrest
    subst hrest
    simp [StateMachine.transition, StateMachine.pop, hrun, hst]
  · intro hrest
    subst hrest
    constructor
    · simp [StateMachine.transition, StateMachine.pop, hrun, hst]
    · simp [StateMachine.transition, StateMachine.pop, StateMachine.is_running, hrun, hst]

/-- Witness for C2 at the running machine [1, 0]: popping 1 resumes 0. -/
theorem pop_stops_then_resumes_witness :
    (∀ A rest2, ([0] : List Nat) = A :: rest2 →
      (({ running := true, states := [1, 0] } : StateMachine)).transition Transition.pop
        = ({ running := true, states := A :: rest2 }, [Hook.onStop 1, Hook.onResume A]))
    ∧ (([0] : List Nat) = [] →
      (({ running := true, states := [1, 0] } : StateMachine)).transition Transition.pop
        = ({ running := false, states := [] }, [Hook.onStop 1])
      ∧ ((({ running := true, states := [1, 0] } : StateMachine)).transition Transition.pop).1.is_running = false) :=
  pop_stops_then_resumes { running := true, states := [1, 0] } 1 [0] rfl rfl

/-- C3: switching a running machine with top A to C invokes A.on_stop
strictly before C.on_start, invokes no on_pause and no on_resume, and
replaces A by C in the same slot leaving the states beneath unchanged. -/
theorem switch_stops_then_starts (m : StateMachine) (A C : Nat) (rest : List Nat)
    (hrun : m.running = true) (hst : m.states = A :: rest) :
    m.transition (Transition.switch C)
      = ({ running := true, states := C :: rest }, [Hook.onStop A, Hook.onStart C])
    ∧ (∀ s, Hook.onPause s ∉ [Hook.onStop A, Hook.onStart C])
    ∧ (∀ s, Hook.onResume s ∉ [Hook.onStop A, Hook.onStart C]) := by
  refine ⟨?_, ?_, ?_⟩
  · simp [StateMachine.transition, StateMachine.switch, hrun, hst]
  · intro s; simp
  · intro s; simp

/-- Witness for C3 at the running machine [0, 5] switching to 1. -/
theorem switch_stops_then_starts_witness :
    (({ running := true, states := [0, 5] } : StateMachine)).transition (Transition.switch 1)
      = ({ running := true, states := [1, 5] }, [Hook.onStop 0, Hook.onStart 1])
    ∧ (∀ s, Hook.onPause s ∉ [Hook.onStop 0, Hook.onStart 1])
    ∧ (∀ s, Hook.onResume s ∉ [Hook.onStop 0, Hook.onStart 1]) :=
  switch_stops_then_starts { running := true, states := [0, 5] } 0 1 [5] rfl rfl

/-- C4: quitting a running machine with stack [A, B, C] (C on top) invokes
on_stop in top-down order C, B, A and leaves the machine not running. -/
theorem quit_drains_top_down (m : StateMachine) (A B C : Nat)
    (hrun : m.running = true) (hst : m.states = [C, B, A]) :
    m.transition Transition.quit
      = ({ running := false, states := [] }, [Hook.onStop C, Hook.onStop B, Hook.onStop A])
    ∧ (m.transition Transition.quit).1.is_running = false := by
  constructor
  · simp [StateMachine.transition, StateMachine.stop, hrun, hst]
  · simp [StateMachine.transition, StateMachine.stop, StateMachine.is_running, hrun, hst]

/-- Witness for C4 at the running machine with stack [2, 1, 0], 2 on top. -/
theorem quit_drains_top_down_witness :
    (({ running := true, states := [2, 1, 0] } : StateMachine)).transition Transition.quit
      = ({ running := false, states := [] }, [Hook.onStop 2, Hook.onStop 1, Hook.onStop 0])
    ∧ ((({ running := true, states := [2, 1, 0] } : StateMachine)).transition Transition.quit).1.is_running = false :=
  quit_drains_top_down { running := true, states := [2, 1, 0] } 0 1 2 rfl rfl

/-- C6: starting a stopped machine invokes on_start on the top state once
and sets running; starting the resulting machine again invokes no hook and
changes nothing, so two successive starts invoke on_start exactly once. -/
theorem start_idempotent (m : StateMachine) (s : Nat) (rest : List Nat)
    (hrun : m.running = false) (hst : m.states = s :: rest) :
    m.start = Except.ok ({ running := true, states := s :: rest }, [Hook.onStart s])
    ∧ ({ running := true, states := s :: rest } : StateMachine).start
        = Except.ok ({ running := true, states := s :: rest }, ([] : List Hook)) := by
  constructor
  · simp [StateMachine.start, hrun, hst]
  · simp [StateMachine.start]

/-- Witness for C6 at the freshly constructed machine new 0. -/
theorem start_idempotent_witness :
    (StateMachine.new 0).start
      = Except.ok ({ running := true, states := [0] }, [Hook.onStart 0])
    ∧ ({ running := true, states := [0] } : StateMachine).start
        = Except.ok ({ running := true, states := [0] }, ([] : List Hook)) :=
  start_idempotent (StateMachine.new 0) 0 [] rfl rfl

/-!
Sequences of Push and Pop transitions, for the stack-size invariant.
-/

/-- One operation of a Push/Pop sequence. -/
inductive Op where
  | pushOp (s : Nat)
  | popOp
deriving DecidableEq, Repr

/-- Apply one operation through StateMachine.transition. -/
def applyOp (m : StateMachine) (o : Op) : StateMachine :=
  match o with
  | Op.pushOp s => (m.transition (Transition.push s)).1
  | Op.popOp => (m.transition Transition.pop).1

/-- Apply a sequence of operations left to right. -/
def runOps (m : StateMachine) (ops : List Op) : StateMachine :=
  ops.foldl applyOp m

/-- Number of Push operations in a sequence. -/
def pushCount : List Op → Nat
  | [] => 0
  | Op.pushOp _ :: rest => pushCount rest + 1
  | Op.popOp :: rest => pushCount rest

/-- Number of Pop operations in a sequence. -/
def popCount : List Op → Nat
  | [] => 0
  | Op.pushOp _ :: rest => popCount rest
  | Op.popOp :: rest => popCount rest + 1

/-- Whether, starting with the given number of states above the initial
one, no prefix of the sequence pops more states than were pushed: every
Pop finds a state above the initial one to remove. -/
def noUnderflow : Nat → List Op → Bool
  | _, [] => true
  | credit, Op.pushOp _ :: rest => noUnderflow (credit + 1) rest
  | credit, Op.popOp :: rest =>
      match credit with
      | 0 => false
      | c + 1 => noUnderflow c rest

/-- A machine that is not running is unchanged by any operation sequence. -/
theorem runOps_not_running (ops : List Op) :
    ∀ m : StateMachine, m.running = false → runOps m ops = m := by
  induction ops with
  | nil => intro m _; rfl
  | cons o rest ih =>
      intro m hm
      have happ : applyOp m o = m := by
        cases o <;> simp [applyOp, StateMachine.transition, hm]
      calc runOps m (o :: rest) = runOps (applyOp m o) rest := rfl
        _ = runOps m rest := by rw [happ]
        _ = m := ih m hm

/-- While no prefix underflows, the machine keeps running and the stack
size changes by pushes minus pops. -/
theorem runOps_no_underflow (ops : List Op) :
    ∀ (m : StateMachine) (n : Nat), m.running = true → m.states.length = n + 1 →
    noUnderflow n ops = true →
    (runOps m ops).running = true
    ∧ (runOps m ops).states.length + popCount ops = n + 1 + pushCount ops := by
  induction ops with
  | nil =>
      intro m n hrun hlen _
      exact ⟨hrun, by simp [runOps, popCount, pushCount, hlen]⟩
  | cons o rest ih =>
      intro m n hrun hlen hok
      cases o with
      | pushOp s =>
          cases hst : m.states with
          | nil => simp [hst] at hlen
          | cons cur tail =>
              have happ : applyOp m (Op.pushOp s)
                  = { running := true, states := s :: cur :: tail } := by
                simp [applyOp, StateMachine.transition, StateMachine.push, hrun, hst]
              have hok2 : noUnderflow (n + 1) rest = true := by
                simpa [noUnderflow] using hok
              have hlen2 : ({ running := true, states := s :: cur :: tail } : StateMachine).states.length
                  = (n + 1) + 1 := by
                simp only [List.length_cons]
                have : (cur :: tail).length = n + 1 := by rw [← hst]; exact hlen
                simp only [List.length_cons] at this
                omega
              have hrec := ih { running := true, states := s :: cur :: tail } (n + 1) rfl hlen2 hok2
              refine ⟨?_, ?_⟩
              · calc (runOps m (Op.pushOp s :: rest)).running
                    = (runOps (applyOp m (Op.pushOp s)) rest).running := rfl
                  _ = true := by rw [happ]; exact hrec.1
              · have h1 : runOps m (Op.pushOp s :: rest)
                    = runOps { running := true, states := s :: cur :: tail } rest := by
                  rw [show runOps m (Op.pushOp s :: rest) = runOps (applyOp m (Op.pushOp s)) rest from rfl, happ]
                rw [h1]
                simp only [popCount, pushCount]
                omega
      | popOp =>
          cases n with
          | zero => simp [noUnderflow] at hok
          | succ k =>
              cases hst : m.states with
              | nil => simp [hst] at hlen
              | cons top tail =>
                  cases tail with
                  | nil =>
                      have : (1 : Nat) = k + 2 := by simpa [hst] using hlen
                      omega
                  | cons next tail2 =>
                      have happ : applyOp m Op.popOp
                          = { running := true, states := next :: tail2 } := by
                        simp [applyOp, StateMachine.transition, StateMachine.pop, hrun, hst]
                      have hok2 : noUnderflow k rest = true := by
                        simpa [noUnderflow] using hok
                      have hlen2 : ({ running := true, states := next :: tail2 } : StateMachine).states.length
                          = k + 1 := by
                        have : (top :: next :: tail2).length = k + 2 := by rw [← hst]; exact hlen
                        simp only [List.length_cons] at this ⊢
                        omega
                      have hrec := ih { running := true, states := next :: tail2 } k rfl hlen2 hok2
                      refine ⟨?_, ?_⟩
                      · calc (runOps m (Op.popOp :: rest)).running
                            = (runOps (applyOp m Op.popOp) rest).running := rfl
                          _ = true := by rw [happ]; exact hrec.1
                      · have h1 : runOps m (Op.popOp :: rest)
                            = runOps { running := true, states := next :: tail2 } rest := by
                          rw [show runOps m (Op.popOp :: rest) = runOps (applyOp m Op.popOp) rest from rfl, happ]
                        rw [h1]
                        simp only [popCount, pushCount]
                        omega

/-- The running flag after a sequence is exactly the no-underflow test:
the machine stops running exactly when some prefix pops the stack down to
empty, which pops the initial state. -/
theorem runOps_running_eq_noUnderflow (ops : List Op) :
    ∀ (m : StateMachine) (n : Nat), m.running = true → m.states.length = n + 1 →
    (runOps m ops).running = noUnderflow n ops := by
  induction ops with
  | nil => intro m n hrun _; simpa [runOps, noUnderflow] using hrun
  | cons o rest ih =>
      intro m n hrun hlen
      cases o with
      | pushOp s =>
          cases hst : m.states with
          | nil => simp [hst] at hlen
          | cons cur tail =>
              have happ : applyOp m (Op.pushOp s)
                  = { running := true, states := s :: cur :: tail } := by
                simp [applyOp, StateMachine.transition, StateMachine.push, hrun, hst]
              have hlen2 : ({ running := true, states := s :: cur :: tail } : StateMachine).states.length
                  = (n + 1) + 1 := by
                simp only [List.length_cons]
                have : (cur :: tail).length = n + 1 := by rw [← hst]; exact hlen
                simp only [List.length_cons] at this
                omega
              calc (runOps m (Op.pushOp s :: rest)).running
                  = (runOps (applyOp m (Op.pushOp s)) rest).running := rfl
                _ = noUnderflow (n + 1) rest := by
                    rw [happ]; exact ih _ (n + 1) rfl hlen2
                _ = noUnderflow n (Op.pushOp s :: rest) := by simp [noUnderflow]
      | popOp =>
          cases n with
          | zero =>
              cases hst : m.states with
              | nil => simp [hst] at hlen
              | cons top tail =>
                  cases tail with
                  | cons next tail2 =>
                      have : (top :: next :: tail2).length = 1 := by rw [← hst]; exact hlen
                      simp at this
                  | nil =>
                      have happ : applyOp m Op.popOp
                          = { running := false, states := [] } := by
                        simp [applyOp, StateMachine.transition, StateMachine.pop, hrun, hst]
                      calc (runOps m (Op.popOp :: rest)).running
                          = (runOps (applyOp m Op.popOp) rest).running := rfl
                        _ = ({ running := false, states := [] } : StateMachine).running := by
                            rw [happ, runOps_not_running rest _ rfl]
                        _ = noUnderflow 0 (Op.popOp :: rest) := by simp [noUnderflow]
          | succ k =>
              cases hst : m.states with
              | nil => simp [hst] at hlen
              | cons top tail =>
                  cases tail with
                  | nil =>
                      have : (1 : Nat) = k + 2 := by simpa [hst] using hlen
                      omega
                  | cons next tail2 =>
                      have happ : applyOp m Op.popOp
                          = { running := true, states := next :: tail2 } := by
                        simp [applyOp, StateMachine.transition, StateMachine.pop, hrun, hst]
                      have hlen2 : ({ running := true, states := next :: tail2 } : StateMachine).states.length
                          = k + 1 := by
                        have : (top :: next :: tail2).length = k + 2 := by rw [← hst]; exact hlen
                        simp only [List.length_cons] at this ⊢
                        omega
                      calc (runOps m (Op.popOp :: rest)).running
                          = (runOps (applyOp m Op.popOp) rest).running := rfl
                        _ = noUnderflow k rest := by rw [happ]; exact ih _ k rfl hlen2
                        _ = noUnderflow (k + 1) (Op.popOp :: rest) := by simp [noUnderflow]

/-- A no-underflow sequence pops at most its credit plus its pushes. -/
theorem noUnderflow_popCount_le (ops : List Op) :
    ∀ n, noUnderflow n ops = true → popCount ops ≤ n + pushCount ops := by
  induction ops with
  | nil => intro n _; simp [popCount, pushCount]
  | cons o rest ih =>
      intro n h
      cases o with
      | pushOp s =>
          have := ih (n + 1) (by simpa [noUnderflow] using h)
          simp only [popCount, pushCount]
          omega
      | popOp =>
          cases n with
          | zero => simp [noUnderflow] at h
          | succ k =>
              have := ih k (by simpa [noUnderflow] using h)
              simp only [popCount, pushCount]
              omega

/-- C5 counterexample: from the started machine seeded with one initial
state, the sequence Pop then Push has k = 1 pushes and j = 1 pops with
j less than or equal to k, yet leaves the stack empty, not of size
1 + k - j = 1: the Pop drains the machine and the Push is a no-op. -/
theorem stack_size_claim_counterexample :
    (StateMachine.new 0).start
      = Except.ok ({ running := true, states := [0] }, [Hook.onStart 0])
    ∧ pushCount [Op.popOp, Op.pushOp 1] = 1
    ∧ popCount [Op.popOp, Op.pushOp 1] = 1
    ∧ popCount [Op.popOp, Op.pushOp 1] ≤ pushCount [Op.popOp, Op.pushOp 1]
    ∧ (runOps { running := true, states := [0] } [Op.popOp, Op.pushOp 1]).states.length = 0
    ∧ 1 + pushCount [Op.popOp, Op.pushOp 1] - popCount [Op.popOp, Op.pushOp 1] = 1 := by
  refine ⟨rfl, rfl, rfl, ?_, rfl, rfl⟩
  decide

/-- C5 amended: for a running machine holding exactly the initial state,
a Push/Pop sequence keeps is_running exactly while no prefix pops more
states than were pushed before it (is_running becomes false exactly when
the initial state itself is popped), and under that condition the stack
size after k pushes and j pops is 1 + k - j. -/
theorem stack_size_invariant (m : StateMachine) (ops : List Op)
    (hrun : m.running = true) (hlen : m.states.length = 1) :
    (runOps m ops).is_running = noUnderflow 0 ops
    ∧ (noUnderflow 0 ops = true →
        popCount ops ≤ pushCount ops
        ∧ (runOps m ops).states.length = 1 + pushCount ops - popCount ops) := by
  constructor
  · exact runOps_running_eq_noUnderflow ops m 0 hrun hlen
  · intro hok
    have hcount := noUnderflow_popCount_le ops 0 hok
    have hmain := runOps_no_underflow ops m 0 hrun hlen hok
    refine ⟨by omega, ?_⟩
    have := hmain.2
    omega

/-- Witness for C5 amended at the started machine [0] with the sequence
Push 1, Push 2, Pop. -/
theorem stack_size_invariant_witness :
    (runOps { running := true, states := [0] } [Op.pushOp 1, Op.pushOp 2, Op.popOp]).is_running
      = noUnderflow 0 [Op.pushOp 1, Op.pushOp 2, Op.popOp]
    ∧ (noUnderflow 0 [Op.pushOp 1, Op.pushOp 2, Op.popOp] = true →
        popCount [Op.pushOp 1, Op.pushOp 2, Op.popOp]
          ≤ pushCount [Op.pushOp 1, Op.pushOp 2, Op.popOp]
        ∧ (runOps { running := true, states := [0] } [Op.pushOp 1, Op.pushOp 2, Op.popOp]).states.length
            = 1 + pushCount [Op.pushOp 1, Op.pushOp 2, Op.popOp]
                - popCount [Op.pushOp 1, Op.pushOp 2, Op.popOp]) :=
  stack_size_invariant { running := true, states := [0] } [Op.pushOp 1, Op.pushOp 2, Op.popOp] rfl rfl

/-- C7: a resize request with zero width or zero height changes nothing:
the stored dimensions, the surface configuration and the depth texture are
untouched, and no reconfigure or depth rebuild effect occurs. -/
theorem resize_zero_noop (r : WgpuRenderer) (d : Nat × Nat)
    (h : d.1 = 0 ∨ d.2 = 0) :
    r.resize d = (r, []) := by
  rcases h with h | h <;> simp [WgpuRenderer.resize, h]

/-- A concrete renderer for witnesses: configured at 800 by 600. -/
def sampleRenderer : WgpuRenderer :=
  { config := { format := 7, width := 800, height := 600 },
    dimensions := (800, 600),
    depth_texture := { width := 800, height := 600, label := "Depth Texture" } }

/-- Witness for C7 at the sample renderer with request width 0, height 5. -/
theorem resize_zero_noop_witness :
    sampleRenderer.resize (0, 5) = (sampleRenderer, []) :=
  resize_zero_noop sampleRenderer (0, 5) (Or.inl rfl)

/-- Tests whether an effect is a surface reconfiguration. -/
def isConfigure (e : RenderEffect) : Bool :=
  match e with
  | RenderEffect.configureSurface _ => true
  | _ => false

/-- C8: when the frame acquisition yields Lost, render performs exactly
the resize protocol at the stored dimensions, producing exactly one
surface reconfiguration whose configuration carries those dimensions,
and returns Ok. -/
theorem render_lost_reconfigures (r : WgpuRenderer) (g : Nat) (pj : List Nat)
    (h1 : r.dimensions.1 ≠ 0) (h2 : r.dimensions.2 ≠ 0) :
    (r.render g pj (Except.error SurfaceError.lost)).1 = r.resize r.dimensions
    ∧ (r.render g pj (Except.error SurfaceError.lost)).1.2
        = [RenderEffect.configureSurface
             { r.config with width := r.dimensions.1, height := r.dimensions.2 },
           RenderEffect.createDepthTexture r.dimensions.1 r.dimensions.2]
    ∧ ((r.render g pj (Except.error SurfaceError.lost)).1.2.countP isConfigure) = 1
    ∧ (r.render g pj (Except.error SurfaceError.lost)).2 = Except.ok () := by
  refine ⟨rfl, ?_, ?_, rfl⟩
  · simp [WgpuRenderer.render, WgpuRenderer.resize, Texture.create_depth_texture, h1, h2]
  · simp [WgpuRenderer.render, WgpuRenderer.resize, List.countP, List.countP.go, isConfigure, h1, h2]

/-- Witness for C8 at the sample renderer. -/
theorem render_lost_reconfigures_witness :
    (sampleRenderer.render 0 [] (Except.error SurfaceError.lost)).1
        = sampleRenderer.resize sampleRenderer.dimensions
    ∧ (sampleRenderer.render 0 [] (Except.error SurfaceError.lost)).1.2
        = [RenderEffect.configureSurface
             { sampleRenderer.config with
                width := sampleRenderer.dimensions.1, height := sampleRenderer.dimensions.2 },
           RenderEffect.createDepthTexture sampleRenderer.dimensions.1 sampleRenderer.dimensions.2]
    ∧ ((sampleRenderer.render 0 [] (Except.error SurfaceError.lost)).1.2.countP isConfigure) = 1
    ∧ (sampleRenderer.render 0 [] (Except.error SurfaceError.lost)).2 = Except.ok () :=
  render_lost_reconfigures sampleRenderer 0 []
    (by decide) (by decide)

/-- C9 counterexample: when acquisition yields Outdated, render does not
reconfigure the surface: it only logs the error and leaves the renderer
unchanged, so the trace contains zero reconfiguration effects. -/
theorem render_outdated_counterexample :
    sampleRenderer.render 0 [] (Except.error SurfaceError.outdated)
      = ((sampleRenderer, [RenderEffect.logError SurfaceError.outdated]), Except.ok ())
    ∧ ((sampleRenderer.render 0 [] (Except.error SurfaceError.outdated)).1.2.countP isConfigure) = 0 := by
  constructor
  · rfl
  · decide

/-- C9 amended: Outdated and Timeout are not treated as Lost: no
reconfiguration happens; the error is logged, the renderer is unchanged,
and render returns Ok so the next frame can retry. -/
theorem render_outdated_timeout_logged (r : WgpuRenderer) (g : Nat) (pj : List Nat)
    (e : SurfaceError) (h : e = SurfaceError.outdated ∨ e = SurfaceError.timeout) :
    r.render g pj (Except.error e) = ((r, [RenderEffect.logError e]), Except.ok ())
    ∧ ((r.render g pj (Except.error e)).1.2.countP isConfigure) = 0 := by
  rcases h with h | h <;> subst h <;> exact ⟨rfl, rfl⟩

/-- Witness for C9 amended at the sample renderer with Timeout. -/
theorem render_outdated_timeout_logged_witness :
    sampleRenderer.render 0 [] (Except.error SurfaceError.timeout)
      = ((sampleRenderer, [RenderEffect.logError SurfaceError.timeout]), Except.ok ())
    ∧ ((sampleRenderer.render 0 [] (Except.error SurfaceError.timeout)).1.2.countP isConfigure) = 0 :=
  render_outdated_timeout_logged sampleRenderer 0 [] SurfaceError.timeout (Or.inr rfl)

/-- C10: render returns Ok for every renderer state, gui context, paint
job list and frame outcome, including the OutOfMemory error. -/
theorem render_never_errors (r : WgpuRenderer) (g : Nat) (pj : List Nat)
    (fr : Except SurfaceError Unit) :
    (r.render g pj fr).2 = Except.ok () := by
  cases fr with
  | ok u => rfl
  | error e => cases e <;> rfl
